import Mathlib

/-!
Verification development for the PhotoScan workflow script
(`PhotoScan_Workflow.py`).  The definitions below are a shallow embedding
of the functions the claims refer to: the tie-point quality-reduction
loops (`ReduceError_RU` / `ReduceError_PA` / `ReduceError_RE`), the
correspondence collation (`CollateMatchList`), the solar-geometry
conversion (`GetSunAngle`), the per-band dispatch of `BRDFCorrection`,
the sun/view angle array construction
(`CreateSunViewGeometryArrays`), the corrected-image synthesis and
clipping (`ZenithPredict` / `BRDFImage`), and the density-based outlier
pruning (`SearchForOutliers`).  External collaborators (the Metashape
engine's camera re-optimization and metric re-estimation, pysolar's
solar position, sklearn's regression/clustering) are modelled as
function parameters; machine floats are modelled as rationals.
-/

namespace PhotoScanWorkflow

/-- A tie point as seen by the three `PhotoScan.PointCloud.Filter`
criteria: its reconstruction-uncertainty, projection-accuracy and
reprojection-error metric values. -/
structure TiePoint where
  ru : ℚ
  pa : ℚ
  re : ℚ
deriving DecidableEq, Repr

/-- The boolean flags of a `chunk.optimizeCameras(fit_f=..., ...)` call. -/
structure OptParams where
  f : Bool
  cx : Bool
  cy : Bool
  b1 : Bool
  b2 : Bool
  k1 : Bool
  k2 : Bool
  k3 : Bool
  k4 : Bool
  p1 : Bool
  p2 : Bool
  p3 : Bool
  p4 : Bool
deriving DecidableEq, Repr

/-- The intrinsic subset used inside `ReduceError_RU` and inside the
`ReduceError_PA` loop: f, cx, cy, k1–k3, p1, p2 (lines 278–281). -/
def optStd : OptParams :=
  ⟨true, true, true, false, false, true, true, true, false, true, true, false, false⟩

/-- Every intrinsic parameter enabled, as in the final `ReduceError_PA`
optimization and the `ReduceError_RE` loop (lines 307–310, 326–329). -/
def optAll : OptParams :=
  ⟨true, true, true, true, true, true, true, true, true, true, true, true, true⟩

/-- The chunk state touched by the reduction loops: the surviving tie
points, the `tiepoint_accuracy` configuration value, and a log of the
`optimizeCameras` calls performed. -/
structure Chunk where
  points : List TiePoint
  tiepoint_accuracy : ℚ
  optLog : List OptParams
deriving DecidableEq, Repr

/-- Numeric policy of one reduction phase: initial threshold, the
`while fltr.max_value > stop` bound, the divisor of the too-large test
(`nselected >= len(points) / divisor`), the optional threshold cap of
the widening branch, and the widening step. -/
structure Policy where
  init : ℚ
  stop : ℚ
  divisor : ℚ
  cap : Option ℚ
  widenStep : ℚ
deriving DecidableEq, Repr

/-- The threshold test of the widening branch: `threshold <= cap` when a
cap exists (`threshold <= 50` in RU, `threshold <= 3.0` in PA), always
true in RE, which has no cap. -/
def Policy.capOk (pol : Policy) (t : ℚ) : Bool :=
  match pol.cap with
  | some c => decide (t ≤ c)
  | none => true

/-- `ReduceError_RU` policy (lines 264–283): init 10, stop 10,
half-of-all-points test, cap 50, step +1. -/
def RUpolicy : Policy := ⟨10, 10, 2, some 50, 1⟩

/-- `ReduceError_PA` policy (lines 285–304): init 2.0, stop 2.0,
half-of-all-points test, cap 3.0, step +0.1. -/
def PApolicy : Policy := ⟨2, 2, 2, some 3, 1/10⟩

/-- `ReduceError_RE` policy (lines 312–331): init 0.3, stop 0.3,
tenth-of-all-points test, no cap, step +0.01. -/
def REpolicy : Policy := ⟨3/10, 3/10, 10, none, 1/100⟩

/-- One iteration of a reduction-loop body.  `metric` reads the phase's
filter value off a point; `reopt` models the external engine's joint
effect of `optimizeCameras` followed by `fltr.init` (re-estimating the
metric values of the surviving points); `optP` is the parameter set
logged for the `optimizeCameras` call.  The widening branch
(`nselected >= len(points)/divisor and threshold <= cap`) resets the
selection and raises the threshold; otherwise the selected points
(metric above the threshold) are removed, the cameras re-optimized, and
the threshold reset to `init`. -/
def phaseStep (metric : TiePoint → ℚ) (pol : Policy)
    (reopt : List TiePoint → List TiePoint) (optP : OptParams)
    (c : Chunk) (t : ℚ) : Chunk × ℚ :=
  if ((c.points.filter (fun p => decide (metric p > t))).length : ℚ)
      ≥ (c.points.length : ℚ) / pol.divisor ∧ pol.capOk t then
    (c, t + pol.widenStep)
  else
    ({ points := reopt (c.points.filter (fun p => decide (metric p ≤ t))),
       tiepoint_accuracy := c.tiepoint_accuracy,
       optLog := c.optLog ++ [optP] }, pol.init)

/-- The `while fltr.max_value > stop` loop, with fuel supplying the
termination bound the source leaves implicit. -/
def phaseLoop (metric : TiePoint → ℚ) (pol : Policy)
    (reopt : List TiePoint → List TiePoint) (optP : OptParams) :
    ℕ → Chunk → ℚ → Chunk
  | 0, c, _ => c
  | fuel + 1, c, t =>
    if c.points.any (fun p => decide (metric p > pol.stop)) then
      let s := phaseStep metric pol reopt optP c t
      phaseLoop metric pol reopt optP fuel s.1 s.2
    else c

/-- `ReduceError_RU(chunk)`: the RU loop alone; nothing happens outside
the loop. -/
def ReduceError_RU (reopt : List TiePoint → List TiePoint) (fuel : ℕ)
    (c : Chunk) : Chunk :=
  phaseLoop TiePoint.ru RUpolicy reopt optStd fuel c RUpolicy.init

/-- `ReduceError_PA(chunk)`: the PA loop, then unconditionally
`chunk.tiepoint_accuracy = 0.1` and one more `optimizeCameras` with
every parameter enabled (lines 306–310). -/
def ReduceError_PA (reopt : List TiePoint → List TiePoint) (fuel : ℕ)
    (c : Chunk) : Chunk :=
  { points := (phaseLoop TiePoint.pa PApolicy reopt optStd fuel c PApolicy.init).points,
    tiepoint_accuracy := 1/10,
    optLog := (phaseLoop TiePoint.pa PApolicy reopt optStd fuel c PApolicy.init).optLog
      ++ [optAll] }

/-- `ReduceError_RE(chunk)`: the RE loop alone; its in-loop optimization
already enables every parameter. -/
def ReduceError_RE (reopt : List TiePoint → List TiePoint) (fuel : ℕ)
    (c : Chunk) : Chunk :=
  phaseLoop TiePoint.re REpolicy reopt optAll fuel c REpolicy.init

/-- `CollateMatchList` key/value types: cameras (or camera planes) are
identified by index, pixel coordinates are rational pairs. -/
abbrev Camera := ℕ

abbrev Coord := ℚ × ℚ

/-- `CollateMatchList(camera_matches, point_matches)` (lines 545–556):
keeps the tie points having at least 3 entries in `point_matches`, and
rebuilds `camera_matches` with each camera's dictionary restricted to
the kept points.  Dictionaries are modelled as association lists. -/
def CollateMatchList (camera_matches : List (Camera × List (ℕ × Coord)))
    (point_matches : List (ℕ × List (Camera × Coord))) :
    List (Camera × List (ℕ × Coord)) × List (ℕ × List (Camera × Coord)) :=
  let new_point_matches := point_matches.filter (fun pv => decide (3 ≤ pv.2.length))
  let point_to_keep := new_point_matches.map Prod.fst
  let new_camera_matches := camera_matches.map
    (fun cp => (cp.1, cp.2.filter (fun pc => decide (pc.1 ∈ point_to_keep))))
  (new_camera_matches, new_point_matches)

/-- C1: a tie point survives `CollateMatchList` iff it has at least 3
entries in `point_matches`, and both output maps are rebuilt restricted
to exactly the retained set: the filtered `point_matches` keeps exactly
the entries of length ≥ 3, the rebuilt `camera_matches` restricts every
camera's dictionary to the kept point indices, and a point index is kept
iff its `point_matches` entry has at least 3 observations. -/
theorem CollateMatchList_retains_iff
    (cm : List (Camera × List (ℕ × Coord)))
    (pm : List (ℕ × List (Camera × Coord))) :
    (∀ p v, (p, v) ∈ (CollateMatchList cm pm).2 ↔ ((p, v) ∈ pm ∧ 3 ≤ v.length)) ∧
    ((CollateMatchList cm pm).1 = cm.map
      (fun cp => (cp.1, cp.2.filter
        (fun pc => decide (pc.1 ∈ (CollateMatchList cm pm).2.map Prod.fst))))) ∧
    (∀ q, q ∈ (CollateMatchList cm pm).2.map Prod.fst ↔
      ∃ w, (q, w) ∈ pm ∧ 3 ≤ w.length) := by
  refine ⟨?_, rfl, ?_⟩
  · intro p v
    simp [CollateMatchList, List.mem_filter]
  · intro q
    simp only [CollateMatchList, List.mem_map, List.mem_filter,
      decide_eq_true_eq]
    constructor
    · rintro ⟨⟨a, b⟩, ⟨hmem, hlen⟩, hq⟩
      exact ⟨b, by simpa [← hq] using hmem, hlen⟩
    · rintro ⟨w, hmem, hlen⟩
      exact ⟨⟨q, w⟩, ⟨hmem, hlen⟩, rfl⟩

/-- Splitting a tie-point list by a threshold: the selected points
(metric above the threshold) and the survivors (metric at most the
threshold) partition the list. -/
theorem length_filter_split (metric : TiePoint → ℚ) (t : ℚ) (l : List TiePoint) :
    (l.filter (fun p => decide (metric p > t))).length +
      (l.filter (fun p => decide (metric p ≤ t))).length = l.length := by
  induction l with
  | nil => rfl
  | cons a l ih =>
    by_cases h : metric a > t
    · have h2 : ¬ metric a ≤ t := not_le.2 h
      simp only [gt_iff_lt] at ih
      simp [List.filter_cons, h, h2]
      omega
    · have h2 : metric a ≤ t := not_lt.1 h
      simp only [gt_iff_lt] at ih
      simp [List.filter_cons, h, h2]
      omega

/-- A reduction loop whose input is already converged (every metric at
most the stop value) executes zero iterations. -/
theorem phaseLoop_converged (metric : TiePoint → ℚ) (pol : Policy)
    (reopt : List TiePoint → List TiePoint) (optP : OptParams)
    (fuel : ℕ) (c : Chunk) (t : ℚ)
    (h : ∀ p ∈ c.points, metric p ≤ pol.stop) :
    phaseLoop metric pol reopt optP fuel c t = c := by
  cases fuel with
  | zero => rfl
  | succ n =>
    have hg : ¬ (c.points.any (fun p => decide (metric p > pol.stop)) = true) := by
      simp only [List.any_eq_true, decide_eq_true_eq]
      rintro ⟨p, hp, hgt⟩
      exact absurd hgt (not_lt.2 (h p hp))
    simp only [phaseLoop]
    rw [if_neg hg]

/-- One loop iteration only ever appends to the optimization log. -/
theorem phaseStep_optLog_extends (metric : TiePoint → ℚ) (pol : Policy)
    (reopt : List TiePoint → List TiePoint) (optP : OptParams)
    (c : Chunk) (t : ℚ) :
    ∃ l, (phaseStep metric pol reopt optP c t).1.optLog = c.optLog ++ l := by
  unfold phaseStep
  split
  · exact ⟨[], by simp⟩
  · exact ⟨[optP], rfl⟩

/-- A whole reduction loop only ever appends to the optimization log. -/
theorem phaseLoop_optLog_extends (metric : TiePoint → ℚ) (pol : Policy)
    (reopt : List TiePoint → List TiePoint) (optP : OptParams) :
    ∀ (fuel : ℕ) (c : Chunk) (t : ℚ),
      ∃ l, (phaseLoop metric pol reopt optP fuel c t).optLog = c.optLog ++ l := by
  intro fuel
  induction fuel with
  | zero => exact fun c t => ⟨[], by simp [phaseLoop]⟩
  | succ n ih =>
    intro c t
    simp only [phaseLoop]
    split
    · obtain ⟨l1, hl1⟩ := phaseStep_optLog_extends metric pol reopt optP c t
      obtain ⟨l2, hl2⟩ := ih (phaseStep metric pol reopt optP c t).1
        (phaseStep metric pol reopt optP c t).2
      exact ⟨l1 ++ l2, by rw [hl2, hl1, List.append_assoc]⟩
    · exact ⟨[], by simp⟩

/-- A two-point chunk whose reconstruction uncertainties both equal 11:
it drives the RU loop into the widening branch and then into a removal
iteration with an empty selection. -/
def chunkStall : Chunk := ⟨[⟨11, 0, 0⟩, ⟨11, 0, 0⟩], 1, []⟩

/-- C3 counterexample: the claim "after the iteration either the number
of surviving tie points strictly decreases or the current threshold
strictly increases" is false on the code.  Starting `ReduceError_RU` on
two points of uncertainty 11, the first iteration widens the threshold
from the initial 10 to 11; the second iteration (the loop guard still
holds) selects nothing, removes nothing, and resets the threshold from
11 back to 10: the tie-point count is unchanged and the threshold
strictly decreases. -/
theorem ReduceError_RU_iteration_cex :
    RUpolicy.init = 10 ∧ RUpolicy.stop = 10 ∧
    (chunkStall.points.any (fun p => decide (p.ru > (10:ℚ))) = true) ∧
    phaseStep TiePoint.ru RUpolicy id optStd chunkStall 10 = (chunkStall, 10 + 1) ∧
    (10 : ℚ) + 1 = 11 ∧
    ¬ ((phaseStep TiePoint.ru RUpolicy id optStd chunkStall 11).1.points.length
        < chunkStall.points.length ∨
      11 < (phaseStep TiePoint.ru RUpolicy id optStd chunkStall 11).2) ∧
    (phaseStep TiePoint.ru RUpolicy id optStd chunkStall 11).2 < 11 := by
  have hf10 : chunkStall.points.filter (fun p => decide (p.ru > (10:ℚ)))
      = chunkStall.points := by
    norm_num [chunkStall, List.filter_cons]
  have hf11 : chunkStall.points.filter (fun p => decide (p.ru > (11:ℚ))) = [] := by
    norm_num [chunkStall, List.filter_cons]
  have hf11le : chunkStall.points.filter (fun p => decide (p.ru ≤ (11:ℚ)))
      = chunkStall.points := by
    norm_num [chunkStall, List.filter_cons]
  have hcond10 : ((chunkStall.points.filter (fun p => decide (p.ru > (10:ℚ)))).length : ℚ)
      ≥ (chunkStall.points.length : ℚ) / RUpolicy.divisor ∧ RUpolicy.capOk 10 = true := by
    rw [hf10]
    refine ⟨by norm_num [chunkStall, RUpolicy], ?_⟩
    norm_num [Policy.capOk, RUpolicy]
  have hcond11 : ¬ (((chunkStall.points.filter (fun p => decide (p.ru > (11:ℚ)))).length : ℚ)
      ≥ (chunkStall.points.length : ℚ) / RUpolicy.divisor ∧ RUpolicy.capOk 11 = true) := by
    rw [hf11]
    rintro ⟨hge, -⟩
    norm_num [chunkStall, RUpolicy] at hge
  have hstep11 : phaseStep TiePoint.ru RUpolicy id optStd chunkStall 11 =
      ({ points := chunkStall.points, tiepoint_accuracy := chunkStall.tiepoint_accuracy,
         optLog := chunkStall.optLog ++ [optStd] }, 10) := by
    unfold phaseStep
    rw [if_neg hcond11, hf11le]
    rfl
  refine ⟨rfl, rfl, by norm_num [chunkStall], ?_, by norm_num, ?_, ?_⟩
  · unfold phaseStep
    rw [if_pos hcond10]
    rfl
  · rw [hstep11]
    norm_num
  · rw [hstep11]
    norm_num

/-- C3 as amended: after any iteration of an RU/PA loop (any policy with
a positive widening step, under an engine re-estimation that preserves
the number of surviving points), either the surviving tie-point count
strictly decreases, or the threshold strictly increases, or the
iteration's selection was empty — in which case the point set is
unchanged and the threshold is reset to the phase's initial value. -/
theorem phaseStep_decrease_or_widen_or_reset
    (metric : TiePoint → ℚ) (pol : Policy)
    (reopt : List TiePoint → List TiePoint) (optP : OptParams)
    (c : Chunk) (t : ℚ)
    (hlen : ∀ l, (reopt l).length = l.length)
    (hstep : 0 < pol.widenStep) :
    (phaseStep metric pol reopt optP c t).1.points.length < c.points.length ∨
    t < (phaseStep metric pol reopt optP c t).2 ∨
    ((c.points.filter (fun p => decide (metric p > t))).length = 0 ∧
      (phaseStep metric pol reopt optP c t).1.points.length = c.points.length ∧
      (phaseStep metric pol reopt optP c t).2 = pol.init) := by
  have hsplit := length_filter_split metric t c.points
  unfold phaseStep
  split
  · right; left
    simp only
    linarith
  · by_cases hsel : (c.points.filter (fun p => decide (metric p > t))).length = 0
    · right; right
      refine ⟨hsel, ?_, rfl⟩
      simp only [hlen]
      omega
    · left
      simp only [hlen]
      omega

/-- Closed witness for the amended C3 trichotomy at a concrete input. -/
theorem phaseStep_decrease_or_widen_or_reset_witness :
    (phaseStep TiePoint.ru RUpolicy id optStd chunkStall 10).1.points.length
      < chunkStall.points.length ∨
    10 < (phaseStep TiePoint.ru RUpolicy id optStd chunkStall 10).2 ∨
    ((chunkStall.points.filter (fun p => decide (p.ru > 10))).length = 0 ∧
      (phaseStep TiePoint.ru RUpolicy id optStd chunkStall 10).1.points.length
        = chunkStall.points.length ∧
      (phaseStep TiePoint.ru RUpolicy id optStd chunkStall 10).2 = RUpolicy.init) :=
  phaseStep_decrease_or_widen_or_reset TiePoint.ru RUpolicy id optStd chunkStall 10
    (fun l => rfl) (by norm_num [RUpolicy])

/-- A two-point chunk whose reconstruction uncertainties both equal 60:
every RU iteration up to the cap selects all points and widens. -/
def chunkCap : Chunk := ⟨[⟨60, 0, 0⟩, ⟨60, 0, 0⟩], 1, []⟩

/-- The RU loop body specialized to the identity re-estimation, as a map
on (chunk, threshold) states. -/
def ruStepId (s : Chunk × ℚ) : Chunk × ℚ :=
  phaseStep TiePoint.ru RUpolicy id optStd s.1 s.2

/-- C4 as amended: in the RU phase, when the selected tie points number
at least half of all points, the threshold is widened by +1 exactly
while it is still at most 50 (so the last widening can move it from 50
to 51); once the threshold exceeds 50, the selected points are removed
regardless of their fraction. -/
theorem ReduceError_RU_cap_amended
    (reopt : List TiePoint → List TiePoint) (optP : OptParams)
    (c : Chunk) (t : ℚ)
    (hhalf : ((c.points.filter (fun p => decide (p.ru > t))).length : ℚ)
      ≥ (c.points.length : ℚ) / 2) :
    (t ≤ 50 → phaseStep TiePoint.ru RUpolicy reopt optP c t = (c, t + 1)) ∧
    (50 < t → phaseStep TiePoint.ru RUpolicy reopt optP c t =
      ({ points := reopt (c.points.filter (fun p => decide (p.ru ≤ t))),
         tiepoint_accuracy := c.tiepoint_accuracy,
         optLog := c.optLog ++ [optP] }, 10)) := by
  constructor
  · intro hle
    have hcond : ((c.points.filter (fun p => decide (p.ru > t))).length : ℚ)
        ≥ (c.points.length : ℚ) / RUpolicy.divisor ∧ RUpolicy.capOk t = true := by
      refine ⟨hhalf, ?_⟩
      have hck : RUpolicy.capOk t = decide (t ≤ 50) := rfl
      rw [hck, decide_eq_true_eq]
      exact hle
    unfold phaseStep
    rw [if_pos hcond]
    rfl
  · intro hgt
    have hcond : ¬ (((c.points.filter (fun p => decide (p.ru > t))).length : ℚ)
        ≥ (c.points.length : ℚ) / RUpolicy.divisor ∧ RUpolicy.capOk t = true) := by
      rintro ⟨-, hcap⟩
      have hck : RUpolicy.capOk t = decide (t ≤ 50) := rfl
      rw [hck, decide_eq_true_eq] at hcap
      linarith
    unfold phaseStep
    rw [if_neg hcond]
    rfl

/-- Closed witness for the amended C4 statement: at threshold exactly 50
with the whole point set selected, the step widens (to 50 + 1 = 51). -/
theorem ReduceError_RU_cap_amended_witness :
    phaseStep TiePoint.ru RUpolicy id optStd chunkCap 50 = (chunkCap, 50 + 1) :=
  (ReduceError_RU_cap_amended id optStd chunkCap 50
    (by norm_num [chunkCap, List.filter_cons])).1 (by norm_num)

/-- Every RU iteration on `chunkCap` with threshold at most 50 widens by
one: both points have uncertainty 60, so the selection always holds the
whole set. -/
theorem ruStepId_widen (t : ℚ) (ht : t ≤ 50) :
    ruStepId (chunkCap, t) = (chunkCap, t + 1) := by
  have hfilter : ((chunkCap.points.filter (fun p => decide (p.ru > t))).length : ℚ)
      ≥ (chunkCap.points.length : ℚ) / 2 := by
    have h60 : ∀ p ∈ chunkCap.points, (decide (p.ru > t)) = true := by
      intro p hp
      rw [decide_eq_true_eq]
      have hp' : p = (⟨60, 0, 0⟩ : TiePoint) := by
        simpa [chunkCap] using hp
      rw [hp']
      show (60 : ℚ) > t
      linarith
    rw [List.filter_eq_self.2 h60]
    norm_num [chunkCap]
  exact (ReduceError_RU_cap_amended id optStd chunkCap t hfilter).1 ht

/-- The RU thresholds reached on `chunkCap`: after `n ≤ 40` iterations
from the initial threshold 10, the chunk is untouched and the threshold
is `10 + n`. -/
theorem ruStepId_iterate (n : ℕ) (hn : n ≤ 40) :
    ruStepId^[n] (chunkCap, 10) = (chunkCap, 10 + (n : ℚ)) := by
  induction n with
  | zero => norm_num
  | succ k ih =>
    have hk : k ≤ 40 := Nat.le_of_succ_le hn
    have hkQ : (k : ℚ) ≤ 39 := by
      have : k ≤ 39 := Nat.lt_succ_iff.1 (Nat.lt_of_lt_of_le (Nat.lt_succ_self k) hn)
      exact_mod_cast this
    rw [Function.iterate_succ_apply', ih hk, ruStepId_widen (10 + (k : ℚ)) (by linarith)]
    rw [Prod.ext_iff]
    refine ⟨rfl, ?_⟩
    push_cast
    ring

/-- C4 counterexample: the claim "once the threshold reaches 50, the
selected points are removed regardless of their fraction" is false on
the code, whose widening test is `threshold <= 50`.  The threshold 50 is
reached from the initial value 10 by 40 widening iterations, the
selection there holds all the points (fraction 1 ≥ 1/2), yet the
iteration at threshold 50 still widens to 51 instead of removing. -/
theorem ReduceError_RU_cap_cex :
    ruStepId^[40] (chunkCap, 10) = (chunkCap, 50) ∧
    ((chunkCap.points.filter (fun p => decide (p.ru > (50:ℚ)))).length = 2) ∧
    (((2 : ℕ) : ℚ) ≥ (chunkCap.points.length : ℚ) / 2) ∧
    ruStepId (chunkCap, 50) = (chunkCap, 51) ∧
    (ruStepId (chunkCap, 50)).1.points.length = chunkCap.points.length := by
  have h40 : ruStepId^[40] (chunkCap, 10) = (chunkCap, 50) := by
    rw [ruStepId_iterate 40 (le_refl 40)]
    norm_num
  have h50 : ruStepId (chunkCap, 50) = (chunkCap, 51) := by
    rw [ruStepId_widen 50 (le_refl 50)]
    norm_num
  refine ⟨h40, ?_, by norm_num [chunkCap], h50, by rw [h50]⟩
  norm_num [chunkCap, List.filter_cons]

/-- C5: a reduction phase run on an input whose metric values are all at
or below the phase's stop value (10 for RU, 2.0 for PA, 0.3 for RE)
performs zero loop iterations and removes zero tie points: RU and RE
return the chunk unchanged, and PA leaves the tie points unchanged, its
optimization log recording only the single unconditional post-loop
`optimizeCameras` call. -/
theorem ReduceError_converged_noop
    (reopt : List TiePoint → List TiePoint) (fuel : ℕ) (c : Chunk) :
    ((∀ p ∈ c.points, p.ru ≤ 10) → ReduceError_RU reopt fuel c = c) ∧
    ((∀ p ∈ c.points, p.pa ≤ 2) →
      (ReduceError_PA reopt fuel c).points = c.points ∧
      (ReduceError_PA reopt fuel c).optLog = c.optLog ++ [optAll]) ∧
    ((∀ p ∈ c.points, p.re ≤ 3/10) → ReduceError_RE reopt fuel c = c) := by
  refine ⟨fun h => phaseLoop_converged _ _ _ _ _ _ _ h, fun h => ?_,
    fun h => phaseLoop_converged _ _ _ _ _ _ _ h⟩
  unfold ReduceError_PA
  rw [phaseLoop_converged _ _ _ _ _ _ _ h]
  exact ⟨rfl, rfl⟩

/-- A converged chunk: every RU metric ≤ 10, PA metric ≤ 2, RE metric
≤ 0.3. -/
def chunkConv : Chunk := ⟨[⟨9, 1, 1/5⟩, ⟨8, 2, 3/10⟩], 1, []⟩

/-- Closed witness for C5 on a concrete converged chunk (max RU metric
9 ≤ 10, etc.). -/
theorem ReduceError_converged_noop_witness :
    ReduceError_RU id 5 chunkConv = chunkConv ∧
    (ReduceError_PA id 5 chunkConv).points = chunkConv.points ∧
    ReduceError_RE id 5 chunkConv = chunkConv :=
  ⟨(ReduceError_converged_noop id 5 chunkConv).1 (by norm_num [chunkConv]),
    ((ReduceError_converged_noop id 5 chunkConv).2.1 (by norm_num [chunkConv])).1,
    (ReduceError_converged_noop id 5 chunkConv).2.2 (by norm_num [chunkConv])⟩

/-- C10: `ReduceError_PA` always sets the chunk's `tiepoint_accuracy` to
0.1 and always performs a final camera optimization with every intrinsic
parameter enabled (its log strictly grows and ends with `optAll`), even
when its loop body executes zero times; on a converged input PA mutates
the chunk exactly that way, while `ReduceError_RU` and `ReduceError_RE`
return a converged chunk entirely unchanged. -/
theorem ReduceError_PA_always_mutates
    (reopt : List TiePoint → List TiePoint) (fuel : ℕ) (c : Chunk) :
    (ReduceError_PA reopt fuel c).tiepoint_accuracy = 1/10 ∧
    (∃ l, (ReduceError_PA reopt fuel c).optLog = c.optLog ++ l ++ [optAll]) ∧
    c.optLog.length < (ReduceError_PA reopt fuel c).optLog.length ∧
    ((∀ p ∈ c.points, p.pa ≤ 2) → ReduceError_PA reopt fuel c =
      { points := c.points, tiepoint_accuracy := 1/10,
        optLog := c.optLog ++ [optAll] }) ∧
    ((∀ p ∈ c.points, p.ru ≤ 10) → ReduceError_RU reopt fuel c = c) ∧
    ((∀ p ∈ c.points, p.re ≤ 3/10) → ReduceError_RE reopt fuel c = c) := by
  obtain ⟨l, hl⟩ :=
    phaseLoop_optLog_extends TiePoint.pa PApolicy reopt optStd fuel c PApolicy.init
  refine ⟨rfl, ⟨l, ?_⟩, ?_, fun h => ?_,
    fun h => phaseLoop_converged _ _ _ _ _ _ _ h,
    fun h => phaseLoop_converged _ _ _ _ _ _ _ h⟩
  · unfold ReduceError_PA
    rw [hl, List.append_assoc]
  · unfold ReduceError_PA
    rw [hl]
    simp
  · unfold ReduceError_PA
    rw [phaseLoop_converged _ _ _ _ _ _ _ h]

/-- Closed witness for C10 on a concrete converged chunk. -/
theorem ReduceError_PA_always_mutates_witness :
    (ReduceError_PA id 3 chunkConv).tiepoint_accuracy = 1/10 ∧
    chunkConv.optLog.length < (ReduceError_PA id 3 chunkConv).optLog.length ∧
    ReduceError_PA id 3 chunkConv =
      { points := chunkConv.points, tiepoint_accuracy := 1/10,
        optLog := chunkConv.optLog ++ [optAll] } ∧
    ReduceError_RU id 3 chunkConv = chunkConv := by
  obtain ⟨h1, h2, h3, h4, h5, h6⟩ := ReduceError_PA_always_mutates id 3 chunkConv
  exact ⟨h1, h3, h4 (by norm_num [chunkConv]), h5 (by norm_num [chunkConv])⟩

/-- What the per-band loop of `BRDFCorrection` does with one band. -/
inductive BandAction where
  | skip
  | reopen
  | compute
  | disable
deriving DecidableEq, Repr

/-- The per-band dispatch of `BRDFCorrection` (lines 369–397).  `group`
is the label of `band.group` when the band belongs to a camera group
(`band.group.label` raises `AttributeError` exactly when `band.group` is
`None`, which is what the `except AttributeError` arm catches);
`srcEqDest` is the comparison `filename_formatted ==
new_filename_formatted`; `destExists` is `os.path.exists(new_path)`;
`fitFails` tells whether `BRDFImage` raises `ValueError` (no usable tie
points on a feature).  When the band has a group whose label is
`'Calibration images'` the loop hits `continue`; when it has a group
with any other label the `if` matches nothing, no exception is raised,
and the loop body simply ends — in both cases the band is left
untouched. -/
def brdfBandAction (group : Option String) (srcEqDest destExists fitFails : Bool) :
    BandAction :=
  match group with
  | some g =>
    if g = "Calibration images" then BandAction.skip else BandAction.skip
  | none =>
    if srcEqDest then BandAction.skip
    else if destExists then BandAction.reopen
    else if fitFails then BandAction.disable
    else BandAction.compute

/-- C2 counterexample: a band that belongs to a camera group whose label
is not 'Calibration images', whose destination differs from its source
and for which no corrected file exists, meets none of the claim's three
skip conditions, yet `BRDFCorrection` leaves it untouched and never
computes a corrected image for it: only a band with no group at all can
reach the computing branch. -/
theorem BRDFCorrection_group_skip_cex :
    brdfBandAction (some "MicaSense") false false false = BandAction.skip ∧
    ("MicaSense" ≠ "Calibration images") ∧
    brdfBandAction (some "MicaSense") false false false ≠ BandAction.compute := by
  refine ⟨rfl, by decide, by decide⟩

/-- C2 as amended: a band is skipped (left untouched) exactly when it
belongs to ANY camera group — 'Calibration images' or otherwise — or
when it has no group and its resolved destination path equals its source
path; an ungrouped band with a corrected file already at the destination
is re-opened; an ungrouped band meeting none of these conditions has a
corrected image computed, the band being disabled instead when the fit
raises the no-tie-points `ValueError`. -/
theorem brdfBandAction_cases (group : Option String) (s e f : Bool) :
    (brdfBandAction group s e f = BandAction.skip ↔ (group.isSome = true ∨ s = true)) ∧
    (brdfBandAction group s e f = BandAction.reopen ↔
      (group = none ∧ s = false ∧ e = true)) ∧
    (brdfBandAction group s e f = BandAction.compute ↔
      (group = none ∧ s = false ∧ e = false ∧ f = false)) ∧
    (brdfBandAction group s e f = BandAction.disable ↔
      (group = none ∧ s = false ∧ e = false ∧ f = true)) := by
  cases group with
  | none => cases s <;> cases e <;> cases f <;> simp [brdfBandAction]
  | some g => cases s <;> cases e <;> cases f <;> simp [brdfBandAction]

/-- `GetSunAngle(LonLat, time)` (lines 445–452).  pysolar's
`get_altitude` and `get_azimuth` are external collaborators, so the
embedding takes their outputs — the solar altitude and the
south-referenced solar azimuth — as arguments and performs the script's
conversion: `Sun_zenith = 90 - altitude`, `Sun_azimuth = 180 -
south_azimuth`, with 360 subtracted once when `abs(Sun_azimuth) >=
360`. -/
def GetSunAngle (altitude azimuthSouth : ℚ) : ℚ × ℚ :=
  (90 - altitude,
    if |180 - azimuthSouth| ≥ 360 then 180 - azimuthSouth - 360
    else 180 - azimuthSouth)

/-- C6: `GetSunAngle` returns zenith exactly `90 - altitude` and azimuth
exactly `180 - south_azimuth` with 360 subtracted once when that value's
magnitude reaches 360; for every south azimuth pysolar can produce
(modelled as lying in (−540, 540)) the returned azimuth lies in the open
interval (−360, 360). -/
theorem GetSunAngle_spec (alt s : ℚ) (h1 : -540 < s) (h2 : s < 540) :
    (GetSunAngle alt s).1 = 90 - alt ∧
    (GetSunAngle alt s).2 = (if |180 - s| ≥ 360 then 180 - s - 360 else 180 - s) ∧
    -360 < (GetSunAngle alt s).2 ∧ (GetSunAngle alt s).2 < 360 := by
  refine ⟨rfl, rfl, ?_⟩
  have hrw : (GetSunAngle alt s).2
      = (if |180 - s| ≥ 360 then 180 - s - 360 else 180 - s) := rfl
  rw [hrw]
  by_cases h : (360 : ℚ) ≤ |180 - s|
  · have h3 : (360 : ℚ) ≤ 180 - s := by
      rcases le_abs.1 h with h' | h'
      · exact h'
      · linarith
    rw [if_pos h]
    constructor <;> linarith
  · rw [if_neg h]
    have hl := abs_lt.1 (not_le.1 h)
    exact ⟨by linarith [hl.1], by linarith [hl.2]⟩

/-- Closed witness for C6 at altitude 30 and south azimuth 200 (azimuth
conversion gives −20, no wrap). -/
theorem GetSunAngle_spec_witness :
    (GetSunAngle 30 200).1 = 90 - 30 ∧
    (GetSunAngle 30 200).2
      = (if |(180 : ℚ) - 200| ≥ 360 then 180 - 200 - 360 else 180 - 200) ∧
    -360 < (GetSunAngle 30 200).2 ∧ (GetSunAngle 30 200).2 < 360 :=
  GetSunAngle_spec 30 200 (by norm_num) (by norm_num)

/-- The sun pair written into pixel `(u, v)`: recomputed there when
`Pixelwise` is true, else the pair of the camera-centre coordinate
`(width/2 + cx, width/2 + cy)` — reproducing the source's use of `width`
in both components. -/
def sunPixelPair (pixelwise : Bool) (sunAngleAt : ℚ → ℚ → ℚ × ℚ)
    (width : ℕ) (cx cy : ℚ) (u v : ℕ) : ℚ × ℚ :=
  if pixelwise then sunAngleAt (u : ℚ) (v : ℚ)
  else sunAngleAt ((width : ℚ) / 2 + cx) ((width : ℚ) / 2 + cy)

/-- `CreateSunViewGeometryArrays(chunk, camera)` (lines 467–495).
`sunAngleAt u v` composes `GetPixelLocation` and `GetSunAngle` at a
(possibly fractional) pixel coordinate; `viewAngleAt` is `GetViewAngle`.
The four returned `height × width` arrays hold, at row `v` and column
`u`, the sun zenith, sun azimuth, view zenith and view azimuth of pixel
`(u, v)`. -/
def CreateSunViewGeometryArrays (pixelwise : Bool)
    (sunAngleAt : ℚ → ℚ → ℚ × ℚ) (viewAngleAt : ℕ → ℕ → ℚ × ℚ)
    (width height : ℕ) (cx cy : ℚ) :
    List (List ℚ) × List (List ℚ) × List (List ℚ) × List (List ℚ) :=
  ((List.range height).map (fun v => (List.range width).map (fun u =>
      (sunPixelPair pixelwise sunAngleAt width cx cy u v).1)),
   (List.range height).map (fun v => (List.range width).map (fun u =>
      (sunPixelPair pixelwise sunAngleAt width cx cy u v).2)),
   (List.range height).map (fun v => (List.range width).map (fun u =>
      (viewAngleAt u v).1)),
   (List.range height).map (fun v => (List.range width).map (fun u =>
      (viewAngleAt u v).2)))

/-- Mapping a constant function over `List.range`. -/
theorem map_range_const {α : Type} (n : ℕ) (x : α) :
    (List.range n).map (fun _ => x) = List.replicate n x := by
  rw [List.map_const', List.length_range]

/-- C8: with `Pixelwise` false, the solar zenith and azimuth arrays
produced by `CreateSunViewGeometryArrays` are constant: every pixel
holds the single pair computed from the camera-centre pixel's
geo-location. -/
theorem CreateSunViewGeometryArrays_const
    (sunAngleAt : ℚ → ℚ → ℚ × ℚ) (viewAngleAt : ℕ → ℕ → ℚ × ℚ)
    (width height : ℕ) (cx cy : ℚ) :
    (CreateSunViewGeometryArrays false sunAngleAt viewAngleAt width height cx cy).1
      = List.replicate height (List.replicate width
          (sunAngleAt ((width : ℚ) / 2 + cx) ((width : ℚ) / 2 + cy)).1) ∧
    (CreateSunViewGeometryArrays false sunAngleAt viewAngleAt width height cx cy).2.1
      = List.replicate height (List.replicate width
          (sunAngleAt ((width : ℚ) / 2 + cx) ((width : ℚ) / 2 + cy)).2) := by
  constructor
  · show (List.range height).map (fun v => (List.range width).map (fun u =>
        (sunPixelPair false sunAngleAt width cx cy u v).1))
      = List.replicate height (List.replicate width
          (sunAngleAt ((width : ℚ) / 2 + cx) ((width : ℚ) / 2 + cy)).1)
    have h1 : (fun (v : ℕ) => (List.range width).map (fun (u : ℕ) =>
        (sunPixelPair false sunAngleAt width cx cy u v).1))
        = fun (_ : ℕ) => List.replicate width
            (sunAngleAt ((width : ℚ) / 2 + cx) ((width : ℚ) / 2 + cy)).1 := by
      funext v
      show (List.range width).map (fun (_ : ℕ) =>
          (sunAngleAt ((width : ℚ) / 2 + cx) ((width : ℚ) / 2 + cy)).1) = _
      exact map_range_const width _
    rw [h1]
    exact map_range_const height _
  · show (List.range height).map (fun v => (List.range width).map (fun u =>
        (sunPixelPair false sunAngleAt width cx cy u v).2))
      = List.replicate height (List.replicate width
          (sunAngleAt ((width : ℚ) / 2 + cx) ((width : ℚ) / 2 + cy)).2)
    have h2 : (fun (v : ℕ) => (List.range width).map (fun (u : ℕ) =>
        (sunPixelPair false sunAngleAt width cx cy u v).2))
        = fun (_ : ℕ) => List.replicate width
            (sunAngleAt ((width : ℚ) / 2 + cx) ((width : ℚ) / 2 + cy)).2 := by
      funext v
      show (List.range width).map (fun (_ : ℕ) =>
          (sunAngleAt ((width : ℚ) / 2 + cx) ((width : ℚ) / 2 + cy)).2) = _
      exact map_range_const width _
    rw [h2]
    exact map_range_const height _

/-- The PhotoScan image datatypes recognised by `BRDFImage` (its
`datatype` table, line 587). -/
inductive ImageDtype where
  | U8
  | U16
  | U32
  | F32
  | F64
deriving DecidableEq, Repr

/-- `np.iinfo(dtype).min` / `np.finfo(dtype).min` for the recognised
datatypes; the float minima are the negated largest finite values. -/
def dtypeMin : ImageDtype → ℚ
  | ImageDtype.U8 => 0
  | ImageDtype.U16 => 0
  | ImageDtype.U32 => 0
  | ImageDtype.F32 => -((2 : ℚ) ^ 128 - 2 ^ 104)
  | ImageDtype.F64 => -((2 : ℚ) ^ 1024 - 2 ^ 971)

/-- `np.iinfo(dtype).max` / `np.finfo(dtype).max`. -/
def dtypeMax : ImageDtype → ℚ
  | ImageDtype.U8 => 255
  | ImageDtype.U16 => 65535
  | ImageDtype.U32 => 4294967295
  | ImageDtype.F32 => (2 : ℚ) ^ 128 - 2 ^ 104
  | ImageDtype.F64 => (2 : ℚ) ^ 1024 - 2 ^ 971

/-- `np.clip(x, lo, hi)` on one value: `min(hi, max(lo, x))`. -/
def npClip (lo hi x : ℚ) : ℚ := min hi (max lo x)

/-- One pixel of `ZenithPredict` (lines 679–702): evaluate the
no-intercept three-coefficient model of each feature on (intensity,
x1 = view_zenith², x2 = view_zenith · cos(view_azimuth − sun_azimuth))
and select by the pixel's feature label, as the vectorised `func` does.
`cosd` is the external degree-cosine. -/
def ZenithPredictPixel (cosd : ℚ → ℚ) (clf0 clf1 : ℚ × ℚ × ℚ)
    (y vz va sa : ℚ) (feature : ℕ) : ℚ :=
  if feature = 0 then
    clf0.1 * y + clf0.2.1 * (vz ^ 2) + clf0.2.2 * (vz * cosd (va - sa))
  else
    clf1.1 * y + clf1.2.1 * (vz ^ 2) + clf1.2.2 * (vz * cosd (va - sa))

/-- One row of `ZenithPredict`, walking the intensity, view-zenith,
view-azimuth, sun-azimuth and feature-label rows in lockstep. -/
def ZenithPredictRow (cosd : ℚ → ℚ) (clf0 clf1 : ℚ × ℚ × ℚ) :
    List ℚ → List ℚ → List ℚ → List ℚ → List ℕ → List ℚ
  | y :: ys, z :: zs, a :: bs, s :: ss, f :: fs =>
    ZenithPredictPixel cosd clf0 clf1 y z a s f ::
      ZenithPredictRow cosd clf0 clf1 ys zs bs ss fs
  | _, _, _, _, _ => []

/-- `ZenithPredict(Image_array, features, Sun_azimuth, View_zenith,
View_azimuth, clf0, clf1)` (lines 679–702) as a row-major array
computation. -/
def ZenithPredict (cosd : ℚ → ℚ) (clf0 clf1 : ℚ × ℚ × ℚ) :
    List (List ℚ) → List (List ℚ) → List (List ℚ) → List (List ℚ) →
      List (List ℕ) → List (List ℚ)
  | y :: ys, z :: zs, a :: bs, s :: ss, f :: fs =>
    ZenithPredictRow cosd clf0 clf1 y z a s f ::
      ZenithPredict cosd clf0 clf1 ys zs bs ss fs
  | _, _, _, _, _ => []

/-- The output stage of `BRDFImage` (lines 636–656): predict the
corrected value of every pixel with `ZenithPredict`, then clip the
whole array into the source datatype's range with `np.clip` before it
is written back into a new image of the same width, height and
datatype. -/
def BRDFImage (d : ImageDtype) (cosd : ℚ → ℚ) (clf0 clf1 : ℚ × ℚ × ℚ)
    (img vz va sa : List (List ℚ)) (features : List (List ℕ)) : List (List ℚ) :=
  (ZenithPredict cosd clf0 clf1 img vz va sa features).map
    (fun row => row.map (npClip (dtypeMin d) (dtypeMax d)))

/-- Row-major shape of a 2-D array: the list of its row lengths. -/
def shape {α : Type} (m : List (List α)) : List ℕ := m.map List.length

theorem dtypeMin_le_dtypeMax (d : ImageDtype) : dtypeMin d ≤ dtypeMax d := by
  cases d <;> norm_num [dtypeMin, dtypeMax]

theorem npClip_mem (lo hi x : ℚ) (h : lo ≤ hi) :
    lo ≤ npClip lo hi x ∧ npClip lo hi x ≤ hi :=
  ⟨le_min h (le_max_left lo x), min_le_left hi _⟩

theorem ZenithPredictRow_length (cosd : ℚ → ℚ) (clf0 clf1 : ℚ × ℚ × ℚ) :
    ∀ (ys zs bs ss : List ℚ) (fs : List ℕ),
      zs.length = ys.length → bs.length = ys.length → ss.length = ys.length →
      fs.length = ys.length →
      (ZenithPredictRow cosd clf0 clf1 ys zs bs ss fs).length = ys.length := by
  intro ys
  induction ys with
  | nil =>
    intro zs bs ss fs h1 h2 h3 h4
    simp only [List.length_nil] at h1 h2 h3 h4
    rw [List.length_eq_zero] at h1 h2 h3 h4
    subst h1; subst h2; subst h3; subst h4
    rfl
  | cons y ys ih =>
    intro zs bs ss fs h1 h2 h3 h4
    cases zs with
    | nil => simp at h1
    | cons z zs =>
      cases bs with
      | nil => simp at h2
      | cons b bs =>
        cases ss with
        | nil => simp at h3
        | cons s ss =>
          cases fs with
          | nil => simp at h4
          | cons f fs =>
            simp only [List.length_cons] at h1 h2 h3 h4
            simp only [ZenithPredictRow, List.length_cons]
            rw [ih zs bs ss fs (by omega) (by omega) (by omega) (by omega)]

theorem ZenithPredict_shape (cosd : ℚ → ℚ) (clf0 clf1 : ℚ × ℚ × ℚ) :
    ∀ (ys zs bs ss : List (List ℚ)) (fs : List (List ℕ)),
      shape zs = shape ys → shape bs = shape ys → shape ss = shape ys →
      shape fs = shape ys →
      shape (ZenithPredict cosd clf0 clf1 ys zs bs ss fs) = shape ys := by
  intro ys
  induction ys with
  | nil =>
    intro zs bs ss fs h1 h2 h3 h4
    have e1 : zs = [] := by simpa [shape] using h1
    have e2 : bs = [] := by simpa [shape] using h2
    have e3 : ss = [] := by simpa [shape] using h3
    have e4 : fs = [] := by simpa [shape] using h4
    subst e1; subst e2; subst e3; subst e4
    rfl
  | cons y ys ih =>
    intro zs bs ss fs h1 h2 h3 h4
    cases zs with
    | nil => simp [shape] at h1
    | cons z zs =>
      cases bs with
      | nil => simp [shape] at h2
      | cons b bs =>
        cases ss with
        | nil => simp [shape] at h3
        | cons s ss =>
          cases fs with
          | nil => simp [shape] at h4
          | cons f fs =>
            simp only [shape, List.map_cons, List.cons.injEq] at h1 h2 h3 h4
            simp only [ZenithPredict, shape, List.map_cons, List.cons.injEq]
            refine ⟨?_, ?_⟩
            · exact ZenithPredictRow_length cosd clf0 clf1 y z b s f
                h1.1 h2.1 h3.1 h4.1
            · exact ih zs bs ss fs h1.2 h2.2 h3.2 h4.2

/-- C7: every pixel of the corrected image produced by `BRDFImage` lies
in the source datatype's representable range `[dtype_min, dtype_max]`,
whatever the input intensities and the fitted per-feature models, and
the emitted array has exactly the source image's shape (it is then
written into a `PhotoScan.Image` created with the source's width, height
and datatype). -/
theorem BRDFImage_clipped (d : ImageDtype) (cosd : ℚ → ℚ)
    (clf0 clf1 : ℚ × ℚ × ℚ) (img vz va sa : List (List ℚ))
    (features : List (List ℕ))
    (hvz : shape vz = shape img) (hva : shape va = shape img)
    (hsa : shape sa = shape img) (hf : shape features = shape img) :
    (∀ row ∈ BRDFImage d cosd clf0 clf1 img vz va sa features, ∀ x ∈ row,
      dtypeMin d ≤ x ∧ x ≤ dtypeMax d) ∧
    shape (BRDFImage d cosd clf0 clf1 img vz va sa features) = shape img := by
  constructor
  · intro row hrow x hx
    rcases List.mem_map.1 hrow with ⟨row0, hrow0, hrfl⟩
    rw [← hrfl] at hx
    rcases List.mem_map.1 hx with ⟨y, hy, hyx⟩
    rw [← hyx]
    exact npClip_mem _ _ y (dtypeMin_le_dtypeMax d)
  · unfold BRDFImage
    have hshape : shape ((ZenithPredict cosd clf0 clf1 img vz va sa features).map
        (fun row => row.map (npClip (dtypeMin d) (dtypeMax d))))
        = shape (ZenithPredict cosd clf0 clf1 img vz va sa features) := by
      simp [shape, List.map_map, Function.comp]
    rw [hshape]
    exact ZenithPredict_shape cosd clf0 clf1 img vz va sa features hvz hva hsa hf

/-- Closed witness for C7: an 8-bit 1×2 image whose predicted values −5
and 300 are clipped into [0, 255], with the shape preserved. -/
theorem BRDFImage_clipped_witness :
    (∀ row ∈ BRDFImage ImageDtype.U8 id (1, 0, 0) (1, 0, 0)
        [[-5, 300]] [[0, 0]] [[0, 0]] [[0, 0]] [[0, 1]], ∀ x ∈ row,
      dtypeMin ImageDtype.U8 ≤ x ∧ x ≤ dtypeMax ImageDtype.U8) ∧
    shape (BRDFImage ImageDtype.U8 id (1, 0, 0) (1, 0, 0)
        [[-5, 300]] [[0, 0]] [[0, 0]] [[0, 0]] [[0, 1]]) = shape [[(-5 : ℚ), 300]] :=
  BRDFImage_clipped ImageDtype.U8 id (1, 0, 0) (1, 0, 0)
    [[-5, 300]] [[0, 0]] [[0, 0]] [[0, 0]] [[0, 1]] rfl rfl rfl rfl

/-- One row of the `BRDFArray` sample tables built by `BRDFImage`
(lines 615–617): `[coords[0], coords[1], y, x1, x2, coef_[0], coef_[1],
intercept_]`. -/
structure BRDFSample where
  u : ℚ
  v : ℚ
  y : ℚ
  x1 : ℚ
  x2 : ℚ
  c0 : ℚ
  c1 : ℚ
  intercept : ℚ
deriving DecidableEq, Repr

/-- `SearchForOutliers(data)` (lines 658–665): DBSCAN is the external
clusterer, so its per-row labels are a parameter; the function keeps
exactly the rows whose label is not −1 (`noise_mask = labels != -1`).
The call at line 659 passes only `eps=5000`, leaving sklearn's default
`min_samples=5`, under which every non-noise cluster contains a core
point and hence at least 5 members; theorems about the pruning quantify
over label lists satisfying that output guarantee. -/
def SearchForOutliers (labels : List ℤ) (data : List BRDFSample) :
    List BRDFSample :=
  ((data.zip labels).filter (fun pl => decide (pl.2 ≠ -1))).map Prod.fst

/-- sklearn's `LinearRegression.fit` raises `ValueError` when handed
zero samples (the situation the source's comment at lines 394–396
documents) and otherwise fits; the least-squares solver itself is the
external collaborator `fit`. -/
def fitNoIntercept (fit : List (ℚ × ℚ × ℚ) → List ℚ → ℚ × ℚ × ℚ)
    (X : List (ℚ × ℚ × ℚ)) (tgt : List ℚ) : Except String (ℚ × ℚ × ℚ) :=
  if X.length = 0 then Except.error "ValueError" else Except.ok (fit X tgt)

/-- The per-feature global-model stage of `BRDFImage` (lines 619–634):
denoise the feature's samples with `SearchForOutliers`, stack columns
(y, x1, x2) as the design matrix and the local intercepts as the
target, and fit the no-intercept model. -/
def brdfFeatureFit (fit : List (ℚ × ℚ × ℚ) → List ℚ → ℚ × ℚ × ℚ)
    (labels : List ℤ) (data : List BRDFSample) : Except String (ℚ × ℚ × ℚ) :=
  fitNoIntercept fit
    ((SearchForOutliers labels data).map (fun smp => (smp.y, smp.x1, smp.x2)))
    ((SearchForOutliers labels data).map (fun smp => smp.intercept))

def sampleA : BRDFSample := ⟨0, 0, 10, 1, 1, 2, 3, 5⟩

def sampleB : BRDFSample := ⟨1, 1, 20, 2, 2, 2, 3, 6⟩

/-- The per-feature global fit fails — with the `ValueError` that
`BRDFCorrection` catches to disable the band — exactly when the density
pruning leaves zero surviving samples. -/
theorem brdfFeatureFit_error_iff
    (fit : List (ℚ × ℚ × ℚ) → List ℚ → ℚ × ℚ × ℚ)
    (labels : List ℤ) (data : List BRDFSample) :
    brdfFeatureFit fit labels data = Except.error "ValueError" ↔
      SearchForOutliers labels data = [] := by
  unfold brdfFeatureFit fitNoIntercept
  by_cases h : ((SearchForOutliers labels data).map
      (fun smp => (smp.y, smp.x1, smp.x2))).length = 0
  · rw [if_pos h]
    simp only [List.length_map, List.length_eq_zero] at h
    simp [h]
  · rw [if_neg h]
    simp only [List.length_map, List.length_eq_zero] at h
    constructor
    · intro hcontra
      simp at hcontra
    · intro hempty
      exact absurd hempty h

/-- Row-aligned zipping: with one DBSCAN label per sample, the number of
rows kept by the noise mask equals the number of non-noise labels. -/
theorem zip_filter_length :
    ∀ (data : List BRDFSample) (labels : List ℤ), labels.length = data.length →
      ((data.zip labels).filter (fun pl => decide (pl.2 ≠ -1))).length
        = (labels.filter (fun l => decide (l ≠ -1))).length
  | [], [], _ => rfl
  | [], l :: ls, h => by simp at h
  | d :: ds, [], h => by simp at h
  | d :: ds, l :: ls, h => by
    have hlen : ls.length = ds.length := by
      simpa using h
    have ihn := zip_filter_length ds ls hlen
    by_cases hl : l = -1
    · simpa [List.zip_cons_cons, List.filter_cons, hl] using ihn
    · simpa [List.zip_cons_cons, List.filter_cons, hl] using ihn

/-- Every occurrence of a fixed non-noise label survives the noise
mask, so the count of that label bounds the survivor count from
below. -/
theorem count_le_nonNoise (x : ℤ) (hx : x ≠ -1) :
    ∀ labels : List ℤ,
      labels.count x ≤ (labels.filter (fun l => decide (l ≠ -1))).length := by
  intro labels
  induction labels with
  | nil => simp
  | cons l ls ih =>
    by_cases hlx : l = x
    · subst hlx
      rw [List.count_cons_self]
      have hcons : (l :: ls).filter (fun a => decide (a ≠ -1))
          = l :: ls.filter (fun a => decide (a ≠ -1)) := by
        simp [List.filter_cons, hx]
      rw [hcons, List.length_cons]
      omega
    · rw [List.count_cons_of_ne (fun he => hlx he.symm)]
      by_cases hl : l = -1
      · have hcons : (l :: ls).filter (fun a => decide (a ≠ -1))
            = ls.filter (fun a => decide (a ≠ -1)) := by
          simp [List.filter_cons, hl]
        rw [hcons]
        exact ih
      · have hcons : (l :: ls).filter (fun a => decide (a ≠ -1))
            = l :: ls.filter (fun a => decide (a ≠ -1)) := by
          simp [List.filter_cons, hl]
        rw [hcons, List.length_cons]
        omega

/-- Under sklearn DBSCAN's output guarantee with the default
`min_samples = 5` (every non-noise label occurs at least 5 times), the
survivor count of `SearchForOutliers` is never 1–4: it is zero or at
least 5. -/
theorem survivors_zero_or_ge (labels : List ℤ) (data : List BRDFSample)
    (hlen : labels.length = data.length)
    (hfeas : ∀ l ∈ labels, l ≠ -1 → 5 ≤ labels.count l) :
    (SearchForOutliers labels data).length = 0 ∨
      5 ≤ (SearchForOutliers labels data).length := by
  have hcard : (SearchForOutliers labels data).length
      = (labels.filter (fun l => decide (l ≠ -1))).length := by
    unfold SearchForOutliers
    rw [List.length_map]
    exact zip_filter_length data labels hlen
  by_cases hempty : labels.filter (fun l => decide (l ≠ -1)) = []
  · left
    rw [hcard, hempty]
    rfl
  · right
    rw [hcard]
    obtain ⟨x, hxmem⟩ := List.exists_mem_of_ne_nil _ hempty
    have hx := List.mem_filter.1 hxmem
    have hxne : x ≠ -1 := by simpa using hx.2
    calc (5 : ℕ) ≤ labels.count x := hfeas x hx.1 hxne
      _ ≤ _ := count_le_nonNoise x hxne labels

/-- C9: for each feature, under the output guarantee of the sklearn
DBSCAN call at line 659 (`eps=5000`, default `min_samples=5`: every
non-noise cluster has at least 5 members), a surviving sample count
below the spec's floor of 3 can only be zero, and in that case the
global fit signals the `ValueError` that `BRDFCorrection` catches by
disabling the band — the code's realization of the spec's
`InsufficientSamples` — instead of proceeding to fit the feature's
global BRDF model; the fit proceeds exactly on a non-empty denoised
sample set.  The feature is required to have at least one sample: on a
completely empty feature the source crashes earlier, at `data[:, 5:8]`,
with an uncaught `IndexError`, before the pruning can return. -/
theorem brdfFeatureFit_insufficient
    (fit : List (ℚ × ℚ × ℚ) → List ℚ → ℚ × ℚ × ℚ)
    (labels : List ℤ) (data : List BRDFSample)
    (hne : data ≠ [])
    (hlen : labels.length = data.length)
    (hfeas : ∀ l ∈ labels, l ≠ -1 → 5 ≤ labels.count l) :
    ((SearchForOutliers labels data).length = 0 ∨
      5 ≤ (SearchForOutliers labels data).length) ∧
    ((SearchForOutliers labels data).length < 3 →
      brdfFeatureFit fit labels data = Except.error "ValueError") ∧
    (brdfFeatureFit fit labels data = Except.error "ValueError" ↔
      SearchForOutliers labels data = []) := by
  have h1 := survivors_zero_or_ge labels data hlen hfeas
  refine ⟨h1, ?_, brdfFeatureFit_error_iff fit labels data⟩
  intro hlt
  have h0 : (SearchForOutliers labels data).length = 0 := by
    rcases h1 with h | h
    · exact h
    · omega
  exact (brdfFeatureFit_error_iff fit labels data).2 (List.length_eq_zero.1 h0)

/-- Closed witness for C9: two samples all marked noise by DBSCAN (the
feasible output `[-1, -1]`) leave zero survivors, and the global fit
signals the error instead of fitting. -/
theorem brdfFeatureFit_insufficient_witness :
    ((SearchForOutliers [-1, -1] [sampleA, sampleB]).length = 0 ∨
      5 ≤ (SearchForOutliers [-1, -1] [sampleA, sampleB]).length) ∧
    ((SearchForOutliers [-1, -1] [sampleA, sampleB]).length < 3 →
      brdfFeatureFit (fun _ _ => (0, 0, 0)) [-1, -1] [sampleA, sampleB]
        = Except.error "ValueError") ∧
    (brdfFeatureFit (fun _ _ => (0, 0, 0)) [-1, -1] [sampleA, sampleB]
        = Except.error "ValueError" ↔
      SearchForOutliers [-1, -1] [sampleA, sampleB] = []) :=
  brdfFeatureFit_insufficient (fun _ _ => (0, 0, 0)) [-1, -1] [sampleA, sampleB]
    (List.cons_ne_nil _ _) rfl (by decide)

end PhotoScanWorkflow
